import Mathlib

/-!
Verification of the statistical-comparison engine of the CS4099 benchmark
suite (`data_scripts/analyze_data.py` and `data_scripts/analyze_aggregate_data.py`).

The Python code is shallowly embedded here:

* dataframes become lists of `Row` (plus an explicit column list in `DataFrame`);
* numeric measurements become `ℚ`;
* the calls into `statsmodels` (`CompareMeans.tconfint_diff`,
  `DescrStatsW.tconfint_mean`) are modelled by a `StatsLib` oracle supplying
  the half-widths of the confidence intervals.  statsmodels always returns an
  interval centred at the sample mean difference (resp. the sample mean) with
  half-width `t_crit * standard_error`; the transcendental half-width itself is
  the oracle's value, and properties of it (nonnegativity, linear scaling) are
  taken as hypotheses where a theorem needs them;
* console output (`print_if_true`) becomes a list of structured `OutputLine`
  events carrying the printed quantities instead of formatted strings;
* file persistence becomes the value that would be written.
-/

/-- A row of a per-trial results dataframe: the deployment mechanism, the trial
number, and the metric columns as an association list (`analyze_data.py` keeps
metric values in named dataframe columns). -/
structure Row where
  mech : String
  trial : Nat
  values : List (String × ℚ)
deriving DecidableEq

/-- Value of a metric column in a row (0 if the column is absent; the Python
code only reads columns that are present). -/
def Row.get (r : Row) (k : String) : ℚ :=
  ((r.values.lookup k).getD 0)

/-- A dataframe: its column names and its rows. -/
structure DataFrame where
  cols : List String
  rows : List Row
deriving DecidableEq

/-- Line 13 of analyze_data.py. -/
def NON_METRIC_COLUMNS : List String := ["index", "deployment-mechanism", "trial-number"]

/-- Line 16 of analyze_data.py. -/
def COMPUTED_COLUMNS : List String := ["instructions-per-cycle", "cycles-per-instruction"]

/-- Line 32 of analyze_data.py. -/
def DOCKER_OVERHEAD_EXCLUDE_DAEMON : Nat := 0

/-- Line 33 of analyze_data.py. -/
def DOCKER_OVERHEAD_INCLUDE_FULL_DAEMON : Nat := 1

/-- Line 34 of analyze_data.py. -/
def DOCKER_OVERHEAD_INCLUDE_ADDITIONAL_DAEMON : Nat := 2

/-- Sample mean, as computed by `statsmodels.DescrStatsW.mean`. -/
def mean (l : List ℚ) : ℚ := l.sum / l.length

/-- Oracle for the statsmodels confidence-interval computations used by
`welch_t_test_with_confidence_interval`:

* `diff_half_width alpha x y` models the half-width of the two-sided
  `(1-alpha)` Welch (unequal-variance) confidence interval that
  `CompareMeans(DescrStatsW(x), DescrStatsW(y)).tconfint_diff(usevar="unequal")`
  returns; the interval itself is centred at `mean x - mean y`.
* `mean_half_width alpha x` models the half-width of the `(1-alpha)`
  confidence interval `DescrStatsW(x).tconfint_mean()` returns; the interval
  is centred at `mean x`. -/
structure StatsLib where
  diff_half_width : ℚ → List ℚ → List ℚ → ℚ
  mean_half_width : ℚ → List ℚ → ℚ

/-- The tuple returned by `welch_t_test_with_confidence_interval`
(lines 36-74 of analyze_data.py). -/
structure WelchStats where
  x_mean : ℚ
  y_mean : ℚ
  mean_diff : ℚ
  ci_lower : ℚ
  ci_upper : ℚ
  ci_half_width : ℚ
  statistically_significant : Bool
  x_ci : ℚ × ℚ
  y_ci : ℚ × ℚ
deriving DecidableEq

/-- Embedding of `welch_t_test_with_confidence_interval` (lines 36-74 of
analyze_data.py).  The statsmodels calls are replaced by the `StatsLib`
oracle as described at the top of this file. -/
def welch_t_test_with_confidence_interval (lib : StatsLib) (arr_x arr_y : List ℚ)
    (alpha : ℚ) : WelchStats :=
  let x_mean := mean arr_x
  let y_mean := mean arr_y
  let hd := lib.diff_half_width alpha arr_x arr_y
  let ci_lower := (x_mean - y_mean) - hd
  let ci_upper := (x_mean - y_mean) + hd
  let mean_diff := |y_mean - x_mean|
  let ci_half_width := (ci_upper - ci_lower) / 2
  let statistically_significant := ! decide (ci_lower ≤ 0 ∧ 0 ≤ ci_upper)
  let hx := lib.mean_half_width alpha arr_x
  let hy := lib.mean_half_width alpha arr_y
  { x_mean := x_mean
    y_mean := y_mean
    mean_diff := mean_diff
    ci_lower := ci_lower
    ci_upper := ci_upper
    ci_half_width := ci_half_width
    statistically_significant := statistically_significant
    x_ci := (x_mean - hx, x_mean + hx)
    y_ci := (y_mean - hy, y_mean + hy) }

/-- A constant-half-width oracle, used to instantiate theorems at concrete
inputs. -/
def constLib (d h : ℚ) : StatsLib :=
  { diff_half_width := fun _ _ _ => d, mean_half_width := fun _ _ => h }

/-- The effect-size range `(ratio_min, ratio_max)` computed on lines 152-164
of analyze_data.py from the two sample means and the half-width of the
difference confidence interval. -/
def ratioRange (x_mean y_mean ci_half_width : ℚ) : ℚ × ℚ :=
  if x_mean < y_mean then
    (y_mean / x_mean - ci_half_width / x_mean, y_mean / x_mean + ci_half_width / x_mean)
  else
    (x_mean / y_mean - ci_half_width / y_mean, x_mean / y_mean + ci_half_width / y_mean)

/-- C1: for non-empty samples X, Y and alpha in (0,1), the comparator's
significance flag equals NOT (ci_lower ≤ 0 ≤ ci_upper) for the two-sided
(1-alpha) Welch confidence interval of mean(Y) - mean(X) (line 68 of
analyze_data.py computes the flag from the interval statsmodels returns for
mean(X) - mean(Y); the straddles-zero test is invariant under negating the
interval, so the flag also equals the test on the mean(Y) - mean(X)
interval), and in particular the flag is false whenever X == Y, since the
interval is then `[-h, h]` for the nonnegative half-width `h`. -/
theorem c1_significance_flag (lib : StatsLib) (arr_x arr_y : List ℚ) (alpha : ℚ)
    (hx : arr_x ≠ []) (hy : arr_y ≠ []) (ha1 : 0 < alpha) (ha2 : alpha < 1)
    (hd0 : 0 ≤ lib.diff_half_width alpha arr_x arr_y) :
    ((welch_t_test_with_confidence_interval lib arr_x arr_y alpha).statistically_significant = true ↔
      ¬ ((mean arr_y - mean arr_x) - lib.diff_half_width alpha arr_x arr_y ≤ 0 ∧
         0 ≤ (mean arr_y - mean arr_x) + lib.diff_half_width alpha arr_x arr_y)) ∧
    (arr_x = arr_y →
      (welch_t_test_with_confidence_interval lib arr_x arr_y alpha).statistically_significant
        = false) := by
  constructor
  · simp only [welch_t_test_with_confidence_interval, Bool.not_eq_true', decide_eq_false_iff_not,
      Bool.not_eq_false', decide_eq_true_eq]
    constructor
    · intro h hq
      exact h ⟨by linarith [hq.1, hq.2], by linarith [hq.1, hq.2]⟩
    · intro h hq
      exact h ⟨by linarith [hq.1, hq.2], by linarith [hq.1, hq.2]⟩
  · intro hxy
    subst hxy
    simp only [welch_t_test_with_confidence_interval, Bool.not_eq_false', decide_eq_true_eq]
    constructor <;> linarith

/-- Witness for C1 at a concrete input. -/
theorem c1_significance_flag_witness :
    ([(1 : ℚ)] ≠ []) ∧ ([(1 : ℚ)] ≠ []) ∧ (0 < (1 : ℚ)/2) ∧ ((1 : ℚ)/2 < 1) ∧
    (0 ≤ (constLib 1 1).diff_half_width (1/2) [(1 : ℚ)] [(1 : ℚ)]) ∧
    (((welch_t_test_with_confidence_interval (constLib 1 1) [(1 : ℚ)] [(1 : ℚ)]
        (1/2)).statistically_significant = true ↔
      ¬ ((mean [(1 : ℚ)] - mean [(1 : ℚ)]) - (constLib 1 1).diff_half_width (1/2) [(1 : ℚ)] [(1 : ℚ)] ≤ 0 ∧
         0 ≤ (mean [(1 : ℚ)] - mean [(1 : ℚ)]) + (constLib 1 1).diff_half_width (1/2) [(1 : ℚ)] [(1 : ℚ)])) ∧
     ([(1 : ℚ)] = [(1 : ℚ)] →
      (welch_t_test_with_confidence_interval (constLib 1 1) [(1 : ℚ)] [(1 : ℚ)]
        (1/2)).statistically_significant = false)) :=
  ⟨by simp, by simp, by norm_num, by norm_num, by norm_num [constLib],
   c1_significance_flag (constLib 1 1) [1] [1] (1/2) (by simp) (by simp)
     (by norm_num) (by norm_num) (by norm_num [constLib])⟩

/-- Python `str.startswith`, on the character lists underlying the strings. -/
def strStartsWith (s p : String) : Bool := p.data.isPrefixOf s.data

/-- Rename the deployment mechanism of a row (the `apply` on the
"deployment-mechanism" column on lines 251, 258 and 266 of analyze_data.py). -/
def renameMech (f : String → String) (r : Row) : Row := { r with mech := f r.mech }

/-- Embedding of `parse_csv_rows` (lines 231-283 of analyze_data.py), starting
from the dataframe read on line 244.  pandas column operations act on the
dataframe's column list and pointwise on every row's value list; row filters
act on the row list. -/
def parse_csv_rows (df : DataFrame) (deployment_mechanisms metrics : List String)
    (docker_overhead_view : Nat) (is_perf_file : Bool) : DataFrame :=
  -- line 247: drop the columns of metrics that were not specified
  let keep : String → Bool := fun c => decide (c ∈ NON_METRIC_COLUMNS) || decide (c ∈ metrics)
  let cols := df.cols.filter keep
  let rows := df.rows.map (fun r => { r with values := r.values.filter (fun p => keep p.1) })
  -- lines 249-271: apply the requested view of the Docker overhead
  let rows :=
    if docker_overhead_view = DOCKER_OVERHEAD_EXCLUDE_DAEMON then
      let rows := rows.map (renameMech (fun m => if m = "docker_container" then "docker" else m))
      rows.filter (fun r => ! strStartsWith r.mech "docker_container_and_daemon")
    else if docker_overhead_view = DOCKER_OVERHEAD_INCLUDE_FULL_DAEMON then
      let rows := rows.map (renameMech (fun m =>
        if strStartsWith m "docker_container_and_daemon" then "docker" else m))
      let rows := rows.filter (fun r => ! strStartsWith r.mech "docker_container")
      rows.filter (fun r => ! strStartsWith r.mech "docker_container_and_daemon_extra_overhead")
    else if docker_overhead_view = DOCKER_OVERHEAD_INCLUDE_ADDITIONAL_DAEMON then
      let rows := rows.map (renameMech (fun m =>
        if strStartsWith m "docker_container_and_daemon_extra_overhead" then "docker" else m))
      let rows := rows.filter (fun r => ! strStartsWith r.mech "docker_container")
      rows.filter (fun r => ! strStartsWith r.mech "docker_container_and_daemon")
    else rows
  -- lines 273-278: derive the computed metrics when both raw columns are present
  let has_both := is_perf_file && decide ("cpu-cycles" ∈ cols) && decide ("instructions" ∈ cols)
  let cols := if has_both then cols ++ COMPUTED_COLUMNS else cols
  let rows := if has_both then
      rows.map (fun r => { r with values := r.values ++
        [("instructions-per-cycle", r.get "instructions" / r.get "cpu-cycles"),
         ("cycles-per-instruction", r.get "cpu-cycles" / r.get "instructions")] })
    else rows
  -- line 281: drop rows of deployment mechanisms that were not specified
  { cols := cols, rows := rows.filter (fun r => decide (r.mech ∈ deployment_mechanisms)) }

/-- C10: every row surviving `parse_csv_rows` has a deployment mechanism that
is a member of the requested mechanisms list (enforced by the final row filter
on line 281 of analyze_data.py); in particular a raw name beginning with
"docker_container" can only survive if it is itself in the requested list. -/
theorem c10_survivors_are_requested (df : DataFrame)
    (deployment_mechanisms metrics : List String) (docker_overhead_view : Nat)
    (is_perf_file : Bool) (r : Row)
    (hr : r ∈ (parse_csv_rows df deployment_mechanisms metrics docker_overhead_view
      is_perf_file).rows) :
    r.mech ∈ deployment_mechanisms ∧
    (strStartsWith r.mech "docker_container" = true → r.mech ∈ deployment_mechanisms) := by
  simp only [parse_csv_rows] at hr
  have h := (List.mem_filter.mp hr).2
  rw [decide_eq_true_eq] at h
  exact ⟨h, fun _ => h⟩

/-- Witness for C10 at a concrete input. -/
theorem c10_survivors_are_requested_witness :
    ((⟨"native", 1, []⟩ : Row) ∈ (parse_csv_rows
        ⟨["deployment-mechanism", "trial-number"], [⟨"native", 1, []⟩]⟩
        ["native"] [] DOCKER_OVERHEAD_EXCLUDE_DAEMON false).rows) ∧
    ((⟨"native", 1, []⟩ : Row).mech ∈ ["native"] ∧
     (strStartsWith (⟨"native", 1, []⟩ : Row).mech "docker_container" = true →
       (⟨"native", 1, []⟩ : Row).mech ∈ ["native"])) :=
  ⟨by decide,
   c10_survivors_are_requested
     ⟨["deployment-mechanism", "trial-number"], [⟨"native", 1, []⟩]⟩
     ["native"] [] DOCKER_OVERHEAD_EXCLUDE_DAEMON false ⟨"native", 1, []⟩ (by decide)⟩

/-- C3: behaviour of the include-full-daemon overhead view at the failing
input.  The rename on line 258 of analyze_data.py tests
`startswith("docker_container_and_daemon")`, which also matches
"docker_container_and_daemon_extra_overhead", so the extra-overhead rows are
canonicalized to "docker" and the removal the comment on lines 261-262
announces never applies to them: starting from one row of each raw variant
plus "native", the surviving mechanisms are ["docker", "docker", "native"]
(the extra-overhead row survives as a second "docker" row) instead of the
["docker", "native"] the claim requires. -/
theorem c3_full_daemon_view_keeps_extra_overhead :
    ((parse_csv_rows
        ⟨["deployment-mechanism", "trial-number"],
         [⟨"docker_container", 1, []⟩, ⟨"docker_container_and_daemon", 2, []⟩,
          ⟨"docker_container_and_daemon_extra_overhead", 3, []⟩, ⟨"native", 4, []⟩]⟩
        ["docker", "native"] [] DOCKER_OVERHEAD_INCLUDE_FULL_DAEMON false).rows.map Row.mech)
      = ["docker", "docker", "native"] := by decide

/-- Python `str.replace("-", "_")` for single-character arguments (the
`metric_with_underscores` computed on line 75 of analyze_aggregate_data.py). -/
def metric_with_underscores (metric : String) : String :=
  ⟨metric.data.map (fun c => if c = '-' then '_' else c)⟩

/-- The `plot_filename_prefix` string built on lines 58-67 of
analyze_aggregate_data.py: both branches begin with "aggregate_models_";
only the "_for_input_"/"_for_model_" part differs. -/
def plot_filename_stem (across_models : Bool) (variable_values : List String)
    (constant_value : String) : String :=
  let variable_values_str := String.intercalate "_" variable_values
  if across_models then
    "aggregate_models_" ++ variable_values_str ++ "_for_input_" ++ constant_value
  else
    "aggregate_models_" ++ variable_values_str ++ "_for_model_" ++ constant_value

/-- The line-chart file name built on line 99 of analyze_aggregate_data.py. -/
def lineplot_filename (across_models : Bool) (variable_values : List String)
    (constant_value metric : String) : String :=
  plot_filename_stem across_models variable_values constant_value ++ "-" ++
    metric_with_underscores metric ++ "-lineplot.png"

/-- C9: behaviour at the failing input.  A cross-inputs comparison (across
models disabled) persists its line chart under the "aggregate_models_" stem,
`aggregate_models_{inputs}_for_model_{model}-{metric}-lineplot.png`, not under
the "aggregate_inputs_" stem the claim requires; the across-models branch
does use "aggregate_models_". -/
theorem c9_lineplot_filename_stems :
    lineplot_filename false ["input1", "input2"] "modelA" "cpu-cycles"
      = "aggregate_models_input1_input2_for_model_modelA-cpu_cycles-lineplot.png" ∧
    lineplot_filename true ["model1", "model2"] "inputB" "cpu-cycles"
      = "aggregate_models_model1_model2_for_input_inputB-cpu_cycles-lineplot.png" := by
  constructor <;> decide

/-- A structured console-output event: one `print_if_true` call of
analyze_data.py (lines 184-198), carrying the printed quantities instead of
the formatted string. -/
inductive OutputLine where
  | significant_difference (mech_x mech_y metric : String)
  | no_significant_difference (mech_x mech_y metric : String)
  | mean_diff_line (mean_diff ci_half_width significance_level : ℚ)
  | avg_line (mech : String) (avg ci_lo ci_hi : ℚ)
  | ratio_line (larger_mech other_mech metric : String) (ratio_min ratio_max : ℚ)
  | blank
deriving DecidableEq

/-- One row of the per-pair `comparison_df` (lines 142-143 and 176-182 of
analyze_data.py).  The formatted interval strings are modelled by the numeric
pairs they are formatted from. -/
structure CompRow where
  metric : String
  x_value : ℚ × ℚ
  y_value : ℚ × ℚ
  statistically_significant : Bool
  effect_size : ℚ × ℚ
deriving DecidableEq

/-- One row of the aggregate dataframe: model, input, deployment mechanism,
and for every metric column optionally its `(mean, error-lower, error-upper)`
triple (`None` until populated, as in `initialize_aggregate_df`). -/
structure AggregateRecord where
  model : String
  input : String
  mech : String
  fields : String → Option (ℚ × ℚ × ℚ)

/-- Embedding of `initialize_aggregate_df` (lines 76-108 of analyze_data.py):
one row per deployment mechanism, all metric fields `None`. -/
def initialize_aggregate_df (metric_cols deployment_mechanisms : List String)
    (model input : String) : List AggregateRecord :=
  deployment_mechanisms.map (fun m =>
    { model := model, input := input, mech := m, fields := fun _ => none })

/-- Overwrite one metric column of an aggregate row's fields. -/
def setField (k : String) (v : ℚ × ℚ × ℚ) (f : String → Option (ℚ × ℚ × ℚ)) :
    String → Option (ℚ × ℚ × ℚ) :=
  fun q => if q = k then some v else f q

/-- Embedding of
`aggregate_df.loc[aggregate_df["deployment-mechanism"] == m, cols] = vals`
(lines 170-173 of analyze_data.py): every row whose mechanism equals `m` gets
metric column `k` overwritten with `v`. -/
def updateAggregateRow (aggs : List AggregateRecord) (m k : String) (v : ℚ × ℚ × ℚ) :
    List AggregateRecord :=
  aggs.map (fun r => if r.mech = m then { r with fields := setField k v r.fields } else r)

/-- The sample `grouped_df.get_group(m)[k]` (lines 128, 146-147 of
analyze_data.py): the metric-`k` values of the rows with mechanism `m`,
in dataframe order. -/
def sampleOf (df : List Row) (m k : String) : List ℚ :=
  (df.filter (fun r => r.mech == m)).map (fun r => r.get k)

/-- The order-of-first-occurrence distinct values of a list, as computed by
`pandas.Series.unique` for `df["deployment-mechanism"].unique()` (line 132 of
analyze_data.py). -/
def uniques (l : List String) : List String :=
  l.foldl (fun acc x => if x ∈ acc then acc else acc ++ [x]) []

/-- All unordered pairs in `itertools.combinations(l, 2)` order (line 138 of
analyze_data.py). -/
def combinations2 : List String → List (String × String)
  | [] => []
  | x :: xs => xs.map (fun y => (x, y)) ++ combinations2 xs

/-- The three pieces of state the loop body of
`analyze_data_significant_difference` updates for one mechanism pair. -/
structure AnalyzeState where
  aggregate_df : List AggregateRecord
  comparison_df : List CompRow
  out : List OutputLine

/-- The `ratio_message` of lines 158 and 164 of analyze_data.py (the mechanism
names appear in the order the source formats them). -/
def ratio_message_line (mech_x mech_y metric : String) (x_mean y_mean : ℚ)
    (rr : ℚ × ℚ) : OutputLine :=
  if x_mean < y_mean then .ratio_line mech_x mech_y metric rr.1 rr.2
  else .ratio_line mech_y mech_x metric rr.1 rr.2

/-- The detailed console lines printed on lines 194-198 of analyze_data.py
(skipped by the `continue` on line 192 when the comparison is insignificant
and insignificant output was not requested). -/
def detail_lines (significance_level : ℚ) (mech_x mech_y metric : String)
    (r : WelchStats) : List OutputLine :=
  [.mean_diff_line r.mean_diff r.ci_half_width significance_level,
   .avg_line mech_x r.x_mean r.x_ci.1 r.x_ci.2,
   .avg_line mech_y r.y_mean r.y_ci.1 r.y_ci.2,
   ratio_message_line mech_x mech_y metric r.x_mean r.y_mean
     (ratioRange r.x_mean r.y_mean r.ci_half_width),
   .blank]

/-- The body of the `for metric in metrics` loop of
`analyze_data_significant_difference` (lines 145-198 of analyze_data.py). -/
def metricStep (lib : StatsLib) (significance_level : ℚ)
    (include_insignificant_output view_output : Bool) (df : List Row)
    (mech_x mech_y : String) (st : AnalyzeState) (metric : String) : AnalyzeState :=
  let arr_x := sampleOf df mech_x metric
  let arr_y := sampleOf df mech_y metric
  let r := welch_t_test_with_confidence_interval lib arr_x arr_y significance_level
  let rr := ratioRange r.x_mean r.y_mean r.ci_half_width
  -- lines 170-173: overwrite both mechanisms' aggregate rows for this metric
  let aggregate_df :=
    updateAggregateRow
      (updateAggregateRow st.aggregate_df mech_x metric
        (r.x_mean, r.x_mean - r.x_ci.1, r.x_ci.2 - r.x_mean))
      mech_y metric (r.y_mean, r.y_mean - r.y_ci.1, r.y_ci.2 - r.y_mean)
  -- lines 176-182: append the comparison row (before the significance check)
  let comparison_df := st.comparison_df ++
    [{ metric := metric, x_value := r.x_ci, y_value := r.y_ci,
       statistically_significant := r.statistically_significant, effect_size := rr }]
  -- lines 184-198: console output; the detail lines are skipped when the
  -- comparison is insignificant and include_insignificant_output is false
  let headline : OutputLine :=
    if r.statistically_significant then .significant_difference mech_x mech_y metric
    else .no_significant_difference mech_x mech_y metric
  let lines := headline ::
    (if r.statistically_significant || include_insignificant_output then
       detail_lines significance_level mech_x mech_y metric r
     else [])
  { aggregate_df := aggregate_df, comparison_df := comparison_df,
    out := st.out ++ (if view_output then lines else []) }

/-- The outputs of `analyze_data_significant_difference`: its return value
`aggregate_df`, the per-pair comparison tables it persists (lines 200-207 of
analyze_data.py; one CSV per pair, written only when `save_output` is true),
and its console output.  Path handling for the CSV files is omitted. -/
structure AnalyzeResult where
  aggregate_df : List AggregateRecord
  comparisons : List ((String × String) × List CompRow)
  out : List OutputLine

/-- The body of the pair loop of `analyze_data_significant_difference`
(lines 138-207 of analyze_data.py): a fresh `comparison_df` per pair, the
metric loop, then the table is persisted when `save_output` is true. -/
def pairStep (lib : StatsLib) (significance_level : ℚ)
    (include_insignificant_output view_output save_output : Bool) (df : List Row)
    (metrics : List String) (acc : AnalyzeResult) (p : String × String) : AnalyzeResult :=
  let st := metrics.foldl
    (metricStep lib significance_level include_insignificant_output view_output df p.1 p.2)
    { aggregate_df := acc.aggregate_df, comparison_df := [], out := acc.out }
  { aggregate_df := st.aggregate_df,
    comparisons := acc.comparisons ++ (if save_output then [(p, st.comparison_df)] else []),
    out := st.out }

/-- Embedding of `analyze_data_significant_difference` (lines 110-209 of
analyze_data.py). -/
def analyze_data_significant_difference (lib : StatsLib) (df : List Row)
    (significance_level : ℚ) (metrics : List String) (model input : String)
    (include_insignificant_output view_output save_output : Bool) : AnalyzeResult :=
  let deployment_mechanisms := uniques (df.map Row.mech)
  (combinations2 deployment_mechanisms).foldl
    (pairStep lib significance_level include_insignificant_output view_output save_output
      df metrics)
    { aggregate_df := initialize_aggregate_df metrics deployment_mechanisms model input,
      comparisons := [], out := [] }

/-- Embedding of `create_or_update_aggregate_csv` (lines 333-351 of
analyze_data.py): the existing persisted store is `none` when the CSV file
does not exist yet; otherwise the new records are appended to it
(`pd.concat`, line 350). -/
def create_or_update_aggregate_csv (aggregate_df : List AggregateRecord)
    (existing : Option (List AggregateRecord)) : List AggregateRecord :=
  match existing with
  | none => aggregate_df
  | some existing_aggregate_df => existing_aggregate_df ++ aggregate_df

/-- C7: when no store exists the new records become the store verbatim;
otherwise merging a store of m rows with n new rows yields exactly m + n
rows with every original row preserved unchanged and in place (`pd.concat`
performs no deduplication, key check or validation). -/
theorem c7_aggregate_store_append (new_records old_store : List AggregateRecord) :
    create_or_update_aggregate_csv new_records none = new_records ∧
    (create_or_update_aggregate_csv new_records (some old_store)).length
      = old_store.length + new_records.length ∧
    (create_or_update_aggregate_csv new_records (some old_store)).take old_store.length
      = old_store := by
  refine ⟨rfl, ?_, ?_⟩
  · simp [create_or_update_aggregate_csv]
  · simp [create_or_update_aggregate_csv, List.take_left]

/-- The comparison row `metricStep` appends for metric `k` of the pair
`(mx, my)`, as a function of the input data alone. -/
def compRowOf (lib : StatsLib) (alpha : ℚ) (df : List Row) (mx my k : String) : CompRow :=
  let r := welch_t_test_with_confidence_interval lib (sampleOf df mx k) (sampleOf df my k) alpha
  { metric := k, x_value := r.x_ci, y_value := r.y_ci,
    statistically_significant := r.statistically_significant,
    effect_size := ratioRange r.x_mean r.y_mean r.ci_half_width }

/-- The console lines `metricStep` emits for metric `k` of the pair
`(mx, my)`, as a function of the input data alone. -/
def outLinesOf (lib : StatsLib) (alpha : ℚ) (inc view : Bool) (df : List Row)
    (mx my k : String) : List OutputLine :=
  let r := welch_t_test_with_confidence_interval lib (sampleOf df mx k) (sampleOf df my k) alpha
  if view then
    (if r.statistically_significant then .significant_difference mx my k
     else .no_significant_difference mx my k) ::
    (if r.statistically_significant || inc then detail_lines alpha mx my k r else [])
  else []

/-- The `(mean, error-lower, error-upper)` triple lines 170-173 of
analyze_data.py write into mechanism `m`'s aggregate row for metric `k`: the
mechanism's own sample mean and its own individual confidence-interval
half-width on either side.  It does not depend on the partner mechanism. -/
def aggVal (lib : StatsLib) (alpha : ℚ) (df : List Row) (m k : String) : ℚ × ℚ × ℚ :=
  (mean (sampleOf df m k), lib.mean_half_width alpha (sampleOf df m k),
   lib.mean_half_width alpha (sampleOf df m k))

/-- The aggregate-dataframe effect of one `metricStep`: both mechanisms' rows
get metric `k` overwritten with their own `aggVal`. -/
def aggStepPair (lib : StatsLib) (alpha : ℚ) (df : List Row) (mx my : String)
    (agg : List AggregateRecord) (k : String) : List AggregateRecord :=
  updateAggregateRow (updateAggregateRow agg mx k (aggVal lib alpha df mx k))
    my k (aggVal lib alpha df my k)

/-- One `metricStep` appends one comparison row and the metric's console
lines, and performs the two aggregate-row overwrites. -/
theorem metricStep_eq (lib : StatsLib) (alpha : ℚ) (inc view : Bool) (df : List Row)
    (mx my : String) (st : AnalyzeState) (k : String) :
    metricStep lib alpha inc view df mx my st k =
      { aggregate_df := aggStepPair lib alpha df mx my st.aggregate_df k,
        comparison_df := st.comparison_df ++ [compRowOf lib alpha df mx my k],
        out := st.out ++ outLinesOf lib alpha inc view df mx my k } := by
  simp only [metricStep, aggStepPair, compRowOf, outLinesOf, aggVal,
    welch_t_test_with_confidence_interval, sub_sub_cancel, add_sub_cancel_left]

/-- Folding `metricStep` over the metric list: the comparison rows are the
metrics' rows in order, the console lines concatenate, and the aggregate
updates fold. -/
theorem foldl_metricStep (lib : StatsLib) (alpha : ℚ) (inc view : Bool) (df : List Row)
    (mx my : String) (ms : List String) (st : AnalyzeState) :
    ms.foldl (metricStep lib alpha inc view df mx my) st =
      { aggregate_df := ms.foldl (aggStepPair lib alpha df mx my) st.aggregate_df,
        comparison_df := st.comparison_df ++ ms.map (compRowOf lib alpha df mx my),
        out := st.out ++ ms.flatMap (outLinesOf lib alpha inc view df mx my) } := by
  induction ms generalizing st with
  | nil => simp
  | cons k t ih =>
    rw [List.foldl_cons, ih, metricStep_eq]
    simp [List.append_assoc]

/-- One `pairStep` in terms of the closed forms. -/
theorem pairStep_eq (lib : StatsLib) (alpha : ℚ) (inc view save : Bool) (df : List Row)
    (metrics : List String) (acc : AnalyzeResult) (p : String × String) :
    pairStep lib alpha inc view save df metrics acc p =
      { aggregate_df := metrics.foldl (aggStepPair lib alpha df p.1 p.2) acc.aggregate_df,
        comparisons := acc.comparisons ++
          (if save then [(p, metrics.map (compRowOf lib alpha df p.1 p.2))] else []),
        out := acc.out ++ metrics.flatMap (outLinesOf lib alpha inc view df p.1 p.2) } := by
  simp only [pairStep, foldl_metricStep, List.nil_append]

/-- Folding `pairStep` over the pair list. -/
theorem foldl_pairStep (lib : StatsLib) (alpha : ℚ) (inc view save : Bool) (df : List Row)
    (metrics : List String) (ps : List (String × String)) (acc : AnalyzeResult) :
    ps.foldl (pairStep lib alpha inc view save df metrics) acc =
      { aggregate_df := ps.foldl
          (fun agg p => metrics.foldl (aggStepPair lib alpha df p.1 p.2) agg) acc.aggregate_df,
        comparisons := acc.comparisons ++
          (if save then ps.map (fun p => (p, metrics.map (compRowOf lib alpha df p.1 p.2)))
           else []),
        out := acc.out ++
          ps.flatMap (fun p => metrics.flatMap (outLinesOf lib alpha inc view df p.1 p.2)) } := by
  induction ps generalizing acc with
  | nil => simp
  | cons p t ih =>
    rw [List.foldl_cons, ih, pairStep_eq]
    cases save <;> simp [List.append_assoc]

/-- An aggregate row for mechanism `m` whose fields are given by a family
`f` indexed by mechanism. -/
def mkAggRec (model input : String) (f : String → String → Option (ℚ × ℚ × ℚ))
    (m : String) : AggregateRecord :=
  { model := model, input := input, mech := m, fields := f m }

theorem setField_same (k : String) (v w : ℚ × ℚ × ℚ)
    (f : String → Option (ℚ × ℚ × ℚ)) :
    setField k v (setField k w f) = setField k v f := by
  funext q
  simp only [setField]
  split <;> rfl

/-- A masked row update acting on a list of `mkAggRec` rows updates the field
family pointwise at the matching mechanism. -/
theorem updateAggregateRow_map (model input : String) (mechs : List String)
    (f : String → String → Option (ℚ × ℚ × ℚ)) (a k : String) (v : ℚ × ℚ × ℚ) :
    updateAggregateRow (mechs.map (mkAggRec model input f)) a k v
      = mechs.map (mkAggRec model input
          (fun m => if m = a then setField k v (f m) else f m)) := by
  simp only [updateAggregateRow, List.map_map]
  congr 1
  funext m
  by_cases h : m = a <;> simp [mkAggRec, Function.comp, h]
/-- Overwriting the same list of keys with the same values twice is the same
as doing it once. -/
theorem ifmem_idem {A : Type} (L : List String) (v : String → A) (g : String → A) :
    (fun q => if q ∈ L then v q else if q ∈ L then v q else g q)
      = fun q => if q ∈ L then v q else g q := by
  funext q
  by_cases h : q ∈ L <;> simp [h]

/-- One `aggStepPair` acting on `mkAggRec` rows. -/
theorem aggStepPair_map (lib : StatsLib) (alpha : ℚ) (df : List Row) (mx my : String)
    (model input : String) (mechs : List String)
    (f : String → String → Option (ℚ × ℚ × ℚ)) (k : String) :
    aggStepPair lib alpha df mx my (mechs.map (mkAggRec model input f)) k
      = mechs.map (mkAggRec model input (fun m =>
          if m = mx ∨ m = my then setField k (aggVal lib alpha df m k) (f m) else f m)) := by
  rw [aggStepPair, updateAggregateRow_map, updateAggregateRow_map]
  congr 1
  funext m
  by_cases h2 : m = my
  · by_cases h1 : m = mx
    · subst h1
      subst h2
      simp [mkAggRec, setField_same]
    · subst h2
      simp [mkAggRec, h1]
  · by_cases h1 : m = mx
    · subst h1
      simp [mkAggRec, h2]
    · simp [mkAggRec, h1, h2]

/-- Folding `aggStepPair` over the metric list on `mkAggRec` rows: the two
mechanisms of the pair get every metric in the list overwritten with their
own `aggVal`; other rows are untouched. -/
theorem foldl_aggStepPair_map (lib : StatsLib) (alpha : ℚ) (df : List Row)
    (mx my model input : String) (mechs : List String) (ms : List String)
    (f : String → String → Option (ℚ × ℚ × ℚ)) :
    ms.foldl (aggStepPair lib alpha df mx my) (mechs.map (mkAggRec model input f))
      = mechs.map (mkAggRec model input (fun m =>
          if m = mx ∨ m = my then
            (fun q => if q ∈ ms then some (aggVal lib alpha df m q) else f m q)
          else f m)) := by
  induction ms generalizing f with
  | nil =>
    rw [List.foldl_nil]
    congr 1
    funext m
    by_cases hm : m = mx ∨ m = my
    · simp [mkAggRec, hm]
    · simp [mkAggRec, hm]
  | cons k t ih =>
    rw [List.foldl_cons, aggStepPair_map, ih]
    congr 1
    funext m
    by_cases hm : m = mx ∨ m = my
    · simp only [mkAggRec, if_pos hm]
      congr 1
      funext q
      by_cases hqt : q ∈ t
      · simp [setField, hqt]
      · by_cases hqk : q = k
        · simp [setField, hqt, hqk]
        · simp [setField, hqt, hqk]
    · simp only [mkAggRec, if_neg hm]

/-- The mechanisms occurring in a list of pairs. -/
def pairMechs : List (String × String) → List String
  | [] => []
  | p :: t => p.1 :: p.2 :: pairMechs t

/-- Folding the per-pair aggregate update over a list of pairs on `mkAggRec`
rows: every mechanism occurring in some pair ends with every metric in the
list overwritten with its own `aggVal` (repeated overwrites write the same
value, so the partner and the order of pairs are irrelevant); mechanisms in
no pair are untouched. -/
theorem foldl_pairs_agg (lib : StatsLib) (alpha : ℚ) (df : List Row)
    (model input : String) (mechs : List String) (metrics : List String)
    (ps : List (String × String)) (f : String → String → Option (ℚ × ℚ × ℚ)) :
    ps.foldl (fun agg p => metrics.foldl (aggStepPair lib alpha df p.1 p.2) agg)
        (mechs.map (mkAggRec model input f))
      = mechs.map (mkAggRec model input (fun m =>
          if m ∈ pairMechs ps then
            (fun q => if q ∈ metrics then some (aggVal lib alpha df m q) else f m q)
          else f m)) := by
  induction ps generalizing f with
  | nil =>
    rw [List.foldl_nil]
    simp [pairMechs]
  | cons p t ih =>
    rw [List.foldl_cons, foldl_aggStepPair_map, ih]
    congr 1
    funext m
    by_cases hmp : m = p.1 ∨ m = p.2
    · have hmpt : m ∈ pairMechs (p :: t) := by
        simp only [pairMechs, List.mem_cons]
        tauto
      by_cases hmt : m ∈ pairMechs t
      · simp only [mkAggRec, if_pos hmp, if_pos hmt, if_pos hmpt]
        congr 1
        funext q
        by_cases hq : q ∈ metrics <;> simp [hq]
      · simp only [mkAggRec, if_pos hmp, if_neg hmt, if_pos hmpt]
    · have hmem : m ∈ pairMechs (p :: t) ↔ m ∈ pairMechs t := by
        simp only [pairMechs, List.mem_cons]
        tauto
      by_cases hmt : m ∈ pairMechs t
      · simp only [mkAggRec, if_neg hmp, if_pos hmt, if_pos (hmem.mpr hmt)]
      · simp only [mkAggRec, if_neg hmp, if_neg hmt,
          if_neg (fun h => hmt (hmem.mp h))]

/-- Closed form of `analyze_data_significant_difference`: the aggregate rows,
the persisted per-pair comparison tables, and the console output, each as a
function of the input data alone. -/
theorem analyze_data_eq (lib : StatsLib) (df : List Row) (alpha : ℚ)
    (metrics : List String) (model input : String) (inc view save : Bool) :
    analyze_data_significant_difference lib df alpha metrics model input inc view save
      = { aggregate_df := (uniques (df.map Row.mech)).map (mkAggRec model input (fun m =>
            if m ∈ pairMechs (combinations2 (uniques (df.map Row.mech))) then
              (fun q => if q ∈ metrics then some (aggVal lib alpha df m q) else none)
            else fun _ => none)),
          comparisons := if save then (combinations2 (uniques (df.map Row.mech))).map
            (fun p => (p, metrics.map (compRowOf lib alpha df p.1 p.2))) else [],
          out := (combinations2 (uniques (df.map Row.mech))).flatMap
            (fun p => metrics.flatMap (outLinesOf lib alpha inc view df p.1 p.2)) } := by
  simp only [analyze_data_significant_difference]
  rw [foldl_pairStep]
  rw [show initialize_aggregate_df metrics (uniques (df.map Row.mech)) model input
      = (uniques (df.map Row.mech)).map (mkAggRec model input (fun _ _ => none)) from rfl]
  rw [foldl_pairs_agg]
  rfl

/-- Both components of a pair occurring in a pair list occur in its
mechanism list. -/
theorem mem_pairMechs_of_mem (ps : List (String × String)) (p : String × String)
    (hp : p ∈ ps) : p.1 ∈ pairMechs ps ∧ p.2 ∈ pairMechs ps := by
  induction ps with
  | nil => cases hp
  | cons q t ih =>
    rcases List.mem_cons.mp hp with rfl | h
    · simp [pairMechs]
    · have := ih h
      simp [pairMechs, this.1, this.2]

/-- When a list has at least two elements, every element occurs in some pair
of `combinations2`. -/
theorem mem_pairMechs_combinations2 (l : List String) (hn : 2 ≤ l.length)
    (m : String) (hm : m ∈ l) : m ∈ pairMechs (combinations2 l) := by
  cases l with
  | nil => simp at hn
  | cons a l' =>
    cases l' with
    | nil => norm_num at hn
    | cons b t =>
      rcases List.mem_cons.mp hm with rfl | hm'
      · have hp : (m, b) ∈ combinations2 (m :: b :: t) := by
          simp only [combinations2]
          exact List.mem_append_left _ (List.mem_map.mpr ⟨b, List.mem_cons_self b t, rfl⟩)
        exact (mem_pairMechs_of_mem _ _ hp).1
      · have hp : (a, m) ∈ combinations2 (a :: b :: t) := by
          simp only [combinations2]
          exact List.mem_append_left _ (List.mem_map.mpr ⟨m, hm', rfl⟩)
        exact (mem_pairMechs_of_mem _ _ hp).2

/-- C4: when at least two deployment mechanisms are present, the
`AggregateRecord` set returned by the orchestrator is exactly one row per
mechanism whose populated fields hold that mechanism's own sample mean and
own individual confidence-interval half-width — a closed form depending only
on the mechanism's own sample, not on the partner it was compared against
nor on the order in which `combinations2` enumerates pairs.  Every overwrite
of a mechanism's row during the pair loop writes this same value, so the
repeated overwrites are idempotent, and since the orchestrator is a pure
function of its input, running it twice on the same input (without
persisting) yields this identical `AggregateRecord` set both times. -/
theorem c4_aggregate_overwrite_idempotent (lib : StatsLib) (df : List Row) (alpha : ℚ)
    (metrics : List String) (model input : String) (inc view save : Bool)
    (hn : 2 ≤ (uniques (df.map Row.mech)).length) :
    (analyze_data_significant_difference lib df alpha metrics model input
        inc view save).aggregate_df
      = (uniques (df.map Row.mech)).map (fun m =>
          { model := model, input := input, mech := m,
            fields := fun q => if q ∈ metrics then
                some (mean (sampleOf df m q),
                      lib.mean_half_width alpha (sampleOf df m q),
                      lib.mean_half_width alpha (sampleOf df m q))
              else none }) := by
  rw [analyze_data_eq]
  apply List.map_congr_left
  intro m hm
  simp only [mkAggRec]
  rw [if_pos (mem_pairMechs_combinations2 _ hn m hm)]
  rfl

/-- A two-mechanism, one-metric fixture used to instantiate theorems at
concrete inputs. -/
def dfAB : List Row := [⟨"a", 1, [("m", 1)]⟩, ⟨"b", 1, [("m", 3)]⟩]

/-- Witness for C4 at a concrete input. -/
theorem c4_aggregate_overwrite_idempotent_witness :
    (2 ≤ (uniques (dfAB.map Row.mech)).length) ∧
    ((analyze_data_significant_difference (constLib 1 1) dfAB (1/20) ["m"] "mdl" "inp"
        false false false).aggregate_df
      = (uniques (dfAB.map Row.mech)).map (fun m =>
          { model := "mdl", input := "inp", mech := m,
            fields := fun q => if q ∈ ["m"] then
                some (mean (sampleOf dfAB m q),
                      (constLib 1 1).mean_half_width (1/20) (sampleOf dfAB m q),
                      (constLib 1 1).mean_half_width (1/20) (sampleOf dfAB m q))
              else none })) :=
  ⟨by decide,
   c4_aggregate_overwrite_idempotent (constLib 1 1) dfAB (1/20) ["m"] "mdl" "inp"
     false false false (by decide)⟩

/-- C8: every populated metric field of every aggregate record produced by
the orchestrator has nonnegative error magnitudes, and the stored mean lies
strictly between (mean - lower) and (mean + upper).  The hypothesis `hpos`
is the statsmodels guarantee that the individual confidence interval of a
sample of size at least 2 with nonzero variance has positive half-width. -/
theorem c8_error_bounds (lib : StatsLib) (df : List Row) (alpha : ℚ)
    (metrics : List String) (model input : String) (inc view save : Bool)
    (hpos : ∀ s : List ℚ, 0 < lib.mean_half_width alpha s)
    (record : AggregateRecord)
    (hrec : record ∈ (analyze_data_significant_difference lib df alpha metrics model input
      inc view save).aggregate_df)
    (k : String) (mu e1 e2 : ℚ) (hk : record.fields k = some (mu, e1, e2)) :
    0 ≤ e1 ∧ 0 ≤ e2 ∧ mu - e1 < mu ∧ mu < mu + e2 := by
  rw [analyze_data_eq] at hrec
  obtain ⟨m, hm, heq⟩ := List.mem_map.mp hrec
  rw [← heq] at hk
  simp only [mkAggRec] at hk
  by_cases ht : m ∈ pairMechs (combinations2 (uniques (df.map Row.mech)))
  · rw [if_pos ht] at hk
    by_cases hkm : k ∈ metrics
    · simp only [if_pos hkm] at hk
      have h3 := Option.some.inj hk
      simp only [aggVal, Prod.mk.injEq] at h3
      obtain ⟨h4, h5, h6⟩ := h3
      subst h5
      subst h6
      exact ⟨le_of_lt (hpos _), le_of_lt (hpos _), sub_lt_self _ (hpos _),
        lt_add_of_pos_right _ (hpos _)⟩
    · simp [hkm] at hk
  · rw [if_neg ht] at hk
    simp at hk

/-- Witness for C8 at a concrete input. -/
theorem c8_error_bounds_witness :
    (∀ s : List ℚ, 0 < (constLib 1 1).mean_half_width (1/20) s) ∧
    (mkAggRec "mdl" "inp" (fun m =>
        if m ∈ pairMechs (combinations2 (uniques (dfAB.map Row.mech))) then
          (fun q => if q ∈ ["m"] then some (aggVal (constLib 1 1) (1/20) dfAB m q) else none)
        else fun _ => none) "a"
      ∈ (analyze_data_significant_difference (constLib 1 1) dfAB (1/20) ["m"] "mdl" "inp"
          false false false).aggregate_df) ∧
    ((mkAggRec "mdl" "inp" (fun m =>
        if m ∈ pairMechs (combinations2 (uniques (dfAB.map Row.mech))) then
          (fun q => if q ∈ ["m"] then some (aggVal (constLib 1 1) (1/20) dfAB m q) else none)
        else fun _ => none) "a").fields "m"
      = some (mean (sampleOf dfAB "a" "m"), 1, 1)) ∧
    (0 ≤ (1 : ℚ) ∧ 0 ≤ (1 : ℚ) ∧
     mean (sampleOf dfAB "a" "m") - 1 < mean (sampleOf dfAB "a" "m") ∧
     mean (sampleOf dfAB "a" "m") < mean (sampleOf dfAB "a" "m") + 1) := by
  have hpos : ∀ s : List ℚ, 0 < (constLib 1 1).mean_half_width (1/20) s :=
    fun _ => by norm_num [constLib]
  have hmem : mkAggRec "mdl" "inp" (fun m =>
      if m ∈ pairMechs (combinations2 (uniques (dfAB.map Row.mech))) then
        (fun q => if q ∈ ["m"] then some (aggVal (constLib 1 1) (1/20) dfAB m q) else none)
      else fun _ => none) "a"
      ∈ (analyze_data_significant_difference (constLib 1 1) dfAB (1/20) ["m"] "mdl" "inp"
          false false false).aggregate_df := by
    simp only [analyze_data_eq]
    exact List.mem_map.mpr ⟨"a", by decide, rfl⟩
  have hfield : (mkAggRec "mdl" "inp" (fun m =>
      if m ∈ pairMechs (combinations2 (uniques (dfAB.map Row.mech))) then
        (fun q => if q ∈ ["m"] then some (aggVal (constLib 1 1) (1/20) dfAB m q) else none)
      else fun _ => none) "a").fields "m"
      = some (mean (sampleOf dfAB "a" "m"), 1, 1) := by
    simp only [mkAggRec]
    rw [if_pos (by decide :
      ("a" : String) ∈ pairMechs (combinations2 (uniques (dfAB.map Row.mech))))]
    simp [aggVal, constLib]
  exact ⟨hpos, hmem, hfield,
    c8_error_bounds (constLib 1 1) dfAB (1/20) ["m"] "mdl" "inp" false false false hpos
      _ hmem "m" (mean (sampleOf dfAB "a" "m")) 1 1 hfield⟩

/-- The fixture samples. -/
theorem sampleOf_dfAB_a : sampleOf dfAB "a" "m" = [1] := by decide

/-- The fixture samples. -/
theorem sampleOf_dfAB_b : sampleOf dfAB "b" "m" = [3] := by decide

/-- With a difference-interval half-width of 5, the fixture comparison is not
statistically significant: the interval [-7, 3] straddles zero. -/
theorem dfAB_flag_false :
    (welch_t_test_with_confidence_interval (constLib 5 1) (sampleOf dfAB "a" "m")
      (sampleOf dfAB "b" "m") (20⁻¹ : ℚ)).statistically_significant = false := by
  rw [sampleOf_dfAB_a, sampleOf_dfAB_b]
  simp only [welch_t_test_with_confidence_interval]
  rw [Bool.not_eq_false']
  apply decide_eq_true
  constructor <;> norm_num [mean, constLib]

/-- C2: behaviour at a concrete input at which the claim fails.  With
`include_insignificant_output` false, `view_output` and `save_output` true,
and an insignificant comparison between mechanisms "a" and "b" on metric "m",
the persisted per-pair comparison table still contains the row for "m" with
significance flag false (the row is appended on line 176 of analyze_data.py
before the significance check, and the whole table is saved on line 207), and
the console still receives the "no statistically significant difference"
line printed on line 190 — only the detail lines 194-198 are skipped. -/
theorem c2_insignificant_row_persisted :
    ((analyze_data_significant_difference (constLib 5 1) dfAB (1/20) ["m"] "mdl" "inp"
        false true true).comparisons.map (fun pr => (pr.1, pr.2.map
          (fun row => (row.metric, row.statistically_significant)))))
      = [(("a", "b"), [("m", false)])] ∧
    (analyze_data_significant_difference (constLib 5 1) dfAB (1/20) ["m"] "mdl" "inp"
        false true true).out = [OutputLine.no_significant_difference "a" "b" "m"] := by
  have huniq : uniques (dfAB.map Row.mech) = ["a", "b"] := by decide
  constructor
  · simp [analyze_data_eq, huniq, combinations2, compRowOf, dfAB_flag_false]
  · simp [analyze_data_eq, huniq, combinations2, outLinesOf, dfAB_flag_false]

/-- C2 (amended): when `include_insignificant_output` is false (and saving is
enabled), every comparison — significant or not — still contributes its row
to the persisted per-pair comparison table (one row per metric, appended on
line 176 of analyze_data.py before the significance check); the console
output of an insignificant comparison is reduced to the single
"no statistically significant difference" line, its detail lines being
skipped, while a significant comparison gets its headline plus the detail
lines; and the aggregate mean/error values of every mechanism are still
computed for every metric. -/
theorem c2_amended_filtering (lib : StatsLib) (df : List Row) (alpha : ℚ)
    (metrics : List String) (model input : String) (view : Bool)
    (hn : 2 ≤ (uniques (df.map Row.mech)).length) :
    ((analyze_data_significant_difference lib df alpha metrics model input false view
        true).comparisons
      = (combinations2 (uniques (df.map Row.mech))).map
          (fun p => (p, metrics.map (compRowOf lib alpha df p.1 p.2)))) ∧
    ((analyze_data_significant_difference lib df alpha metrics model input false view
        true).out
      = (combinations2 (uniques (df.map Row.mech))).flatMap (fun p =>
          metrics.flatMap (fun k =>
            if view then
              (if (welch_t_test_with_confidence_interval lib (sampleOf df p.1 k)
                    (sampleOf df p.2 k) alpha).statistically_significant then
                 OutputLine.significant_difference p.1 p.2 k ::
                   detail_lines alpha p.1 p.2 k
                     (welch_t_test_with_confidence_interval lib (sampleOf df p.1 k)
                       (sampleOf df p.2 k) alpha)
               else [OutputLine.no_significant_difference p.1 p.2 k])
            else []))) ∧
    ((analyze_data_significant_difference lib df alpha metrics model input false view
        true).aggregate_df
      = (uniques (df.map Row.mech)).map (fun m =>
          { model := model, input := input, mech := m,
            fields := fun q => if q ∈ metrics then some (aggVal lib alpha df m q)
              else none })) := by
  refine ⟨?_, ?_, ?_⟩
  · simp [analyze_data_eq]
  · simp only [analyze_data_eq]
    congr 1
    funext p
    congr 1
    funext k
    cases hflag : (welch_t_test_with_confidence_interval lib (sampleOf df p.1 k)
        (sampleOf df p.2 k) alpha).statistically_significant <;>
      simp [outLinesOf, hflag]
  · rw [analyze_data_eq]
    apply List.map_congr_left
    intro m hm
    simp only [mkAggRec]
    rw [if_pos (mem_pairMechs_combinations2 _ hn m hm)]

/-- Witness for the amended C2 at a concrete input. -/
theorem c2_amended_filtering_witness :
    (2 ≤ (uniques (dfAB.map Row.mech)).length) ∧
    (((analyze_data_significant_difference (constLib 5 1) dfAB (1/20) ["m"] "mdl" "inp"
        false true true).comparisons
      = (combinations2 (uniques (dfAB.map Row.mech))).map
          (fun p => (p, ["m"].map (compRowOf (constLib 5 1) (1/20) dfAB p.1 p.2)))) ∧
    ((analyze_data_significant_difference (constLib 5 1) dfAB (1/20) ["m"] "mdl" "inp"
        false true true).out
      = (combinations2 (uniques (dfAB.map Row.mech))).flatMap (fun p =>
          ["m"].flatMap (fun k =>
            if true then
              (if (welch_t_test_with_confidence_interval (constLib 5 1) (sampleOf dfAB p.1 k)
                    (sampleOf dfAB p.2 k) (1/20)).statistically_significant then
                 OutputLine.significant_difference p.1 p.2 k ::
                   detail_lines (1/20) p.1 p.2 k
                     (welch_t_test_with_confidence_interval (constLib 5 1) (sampleOf dfAB p.1 k)
                       (sampleOf dfAB p.2 k) (1/20))
               else [OutputLine.no_significant_difference p.1 p.2 k])
            else []))) ∧
    ((analyze_data_significant_difference (constLib 5 1) dfAB (1/20) ["m"] "mdl" "inp"
        false true true).aggregate_df
      = (uniques (dfAB.map Row.mech)).map (fun m =>
          { model := "mdl", input := "inp", mech := m,
            fields := fun q => if q ∈ ["m"] then some (aggVal (constLib 5 1) (1/20) dfAB m q)
              else none }))) :=
  ⟨by decide,
   c2_amended_filtering (constLib 5 1) dfAB (1/20) ["m"] "mdl" "inp" true (by decide)⟩

/-- C5: for samples with distinct means, the reported effect-size range in
the comparison row is exactly
`[large/small - h/small, large/small + h/small]`, where `small`/`large` are
the smaller/larger sample mean and `h` is the half-width of the Welch
confidence interval of the mean difference (`ci_half_width`). -/
theorem c5_effect_size_range (lib : StatsLib) (alpha : ℚ) (df : List Row)
    (mech_x mech_y k : String)
    (hne : mean (sampleOf df mech_x k) ≠ mean (sampleOf df mech_y k)) :
    (compRowOf lib alpha df mech_x mech_y k).effect_size
      = (max (mean (sampleOf df mech_x k)) (mean (sampleOf df mech_y k)) /
           min (mean (sampleOf df mech_x k)) (mean (sampleOf df mech_y k)) -
         (welch_t_test_with_confidence_interval lib (sampleOf df mech_x k)
             (sampleOf df mech_y k) alpha).ci_half_width /
           min (mean (sampleOf df mech_x k)) (mean (sampleOf df mech_y k)),
         max (mean (sampleOf df mech_x k)) (mean (sampleOf df mech_y k)) /
           min (mean (sampleOf df mech_x k)) (mean (sampleOf df mech_y k)) +
         (welch_t_test_with_confidence_interval lib (sampleOf df mech_x k)
             (sampleOf df mech_y k) alpha).ci_half_width /
           min (mean (sampleOf df mech_x k)) (mean (sampleOf df mech_y k))) := by
  rcases lt_or_gt_of_ne hne with h | h
  · simp only [compRowOf, welch_t_test_with_confidence_interval, ratioRange]
    rw [if_pos h, max_eq_right (le_of_lt h), min_eq_left (le_of_lt h)]
  · simp only [compRowOf, welch_t_test_with_confidence_interval, ratioRange]
    rw [if_neg (not_lt_of_gt h), max_eq_left (le_of_lt h), min_eq_right (le_of_lt h)]

/-- Witness for C5 at a concrete input. -/
theorem c5_effect_size_range_witness :
    (mean (sampleOf dfAB "a" "m") ≠ mean (sampleOf dfAB "b" "m")) ∧
    ((compRowOf (constLib 1 1) (1/20) dfAB "a" "b" "m").effect_size
      = (max (mean (sampleOf dfAB "a" "m")) (mean (sampleOf dfAB "b" "m")) /
           min (mean (sampleOf dfAB "a" "m")) (mean (sampleOf dfAB "b" "m")) -
         (welch_t_test_with_confidence_interval (constLib 1 1) (sampleOf dfAB "a" "m")
             (sampleOf dfAB "b" "m") (1/20)).ci_half_width /
           min (mean (sampleOf dfAB "a" "m")) (mean (sampleOf dfAB "b" "m")),
         max (mean (sampleOf dfAB "a" "m")) (mean (sampleOf dfAB "b" "m")) /
           min (mean (sampleOf dfAB "a" "m")) (mean (sampleOf dfAB "b" "m")) +
         (welch_t_test_with_confidence_interval (constLib 1 1) (sampleOf dfAB "a" "m")
             (sampleOf dfAB "b" "m") (1/20)).ci_half_width /
           min (mean (sampleOf dfAB "a" "m")) (mean (sampleOf dfAB "b" "m")))) := by
  have hne : mean (sampleOf dfAB "a" "m") ≠ mean (sampleOf dfAB "b" "m") := by
    rw [sampleOf_dfAB_a, sampleOf_dfAB_b]
    norm_num [mean]
  exact ⟨hne, c5_effect_size_range (constLib 1 1) (1/20) dfAB "a" "b" "m" hne⟩

/-- Scaling every element of a list scales its mean. -/
theorem mean_map_mul (c : ℚ) (l : List ℚ) :
    mean (l.map (fun v => c * v)) = c * mean l := by
  have hsum : ∀ t : List ℚ, (t.map (fun v => c * v)).sum = c * t.sum := by
    intro t
    induction t with
    | nil => simp
    | cons a s ih => simp [ih, mul_add]
  simp only [mean, hsum, List.length_map]
  rw [mul_div_assoc]

/-- C6: scaling both samples by the same positive constant leaves the
effect-size range unchanged.  The hypothesis `hscale` is the statsmodels
scaling law: the Welch confidence interval of the mean difference of the
scaled samples has exactly `c` times the original half-width (the standard
error scales linearly and the Welch-Satterthwaite degrees of freedom are
scale-free). -/
theorem c6_ratio_scale_invariant (lib : StatsLib) (alpha c : ℚ) (sx sy : List ℚ)
    (hc : 0 < c) (hx : 0 < mean sx) (hy : 0 < mean sy) (hne : mean sx ≠ mean sy)
    (hscale : lib.diff_half_width alpha (sx.map (fun v => c * v)) (sy.map (fun v => c * v))
      = c * lib.diff_half_width alpha sx sy) :
    (ratioRange
      (welch_t_test_with_confidence_interval lib (sx.map (fun v => c * v))
        (sy.map (fun v => c * v)) alpha).x_mean
      (welch_t_test_with_confidence_interval lib (sx.map (fun v => c * v))
        (sy.map (fun v => c * v)) alpha).y_mean
      (welch_t_test_with_confidence_interval lib (sx.map (fun v => c * v))
        (sy.map (fun v => c * v)) alpha).ci_half_width)
      = (ratioRange
          (welch_t_test_with_confidence_interval lib sx sy alpha).x_mean
          (welch_t_test_with_confidence_interval lib sx sy alpha).y_mean
          (welch_t_test_with_confidence_interval lib sx sy alpha).ci_half_width) := by
  have hcne : c ≠ 0 := ne_of_gt hc
  simp only [welch_t_test_with_confidence_interval]
  rw [mean_map_mul, mean_map_mul, hscale]
  have he : ∀ a b : ℚ, (a + b - (a - b)) / 2 = b := by
    intro a b
    ring
  rw [he, he]
  unfold ratioRange
  by_cases h : mean sx < mean sy
  · rw [if_pos h, if_pos ((mul_lt_mul_left hc).mpr h)]
    rw [mul_div_mul_left _ _ hcne, mul_div_mul_left _ _ hcne]
  · rw [if_neg h, if_neg (fun hlt => h ((mul_lt_mul_left hc).mp hlt))]
    rw [mul_div_mul_left _ _ hcne, mul_div_mul_left _ _ hcne]

/-- An oracle whose difference half-width is the mean of the first sample;
it satisfies the scaling law at the witness input. -/
def meanLib : StatsLib :=
  { diff_half_width := fun _ x _ => mean x, mean_half_width := fun _ _ => 1 }

/-- Witness for C6 at a concrete input. -/
theorem c6_ratio_scale_invariant_witness :
    (0 < (2 : ℚ)) ∧ (0 < mean [(1 : ℚ)]) ∧ (0 < mean [(3 : ℚ)]) ∧
    (mean [(1 : ℚ)] ≠ mean [(3 : ℚ)]) ∧
    (meanLib.diff_half_width (1/20) ([(1 : ℚ)].map (fun v => 2 * v))
        ([(3 : ℚ)].map (fun v => 2 * v))
      = 2 * meanLib.diff_half_width (1/20) [(1 : ℚ)] [(3 : ℚ)]) ∧
    ((ratioRange
      (welch_t_test_with_confidence_interval meanLib ([(1 : ℚ)].map (fun v => 2 * v))
        ([(3 : ℚ)].map (fun v => 2 * v)) (1/20)).x_mean
      (welch_t_test_with_confidence_interval meanLib ([(1 : ℚ)].map (fun v => 2 * v))
        ([(3 : ℚ)].map (fun v => 2 * v)) (1/20)).y_mean
      (welch_t_test_with_confidence_interval meanLib ([(1 : ℚ)].map (fun v => 2 * v))
        ([(3 : ℚ)].map (fun v => 2 * v)) (1/20)).ci_half_width)
      = (ratioRange
          (welch_t_test_with_confidence_interval meanLib [(1 : ℚ)] [(3 : ℚ)] (1/20)).x_mean
          (welch_t_test_with_confidence_interval meanLib [(1 : ℚ)] [(3 : ℚ)] (1/20)).y_mean
          (welch_t_test_with_confidence_interval meanLib [(1 : ℚ)] [(3 : ℚ)]
            (1/20)).ci_half_width)) := by
  have h1 : (0 : ℚ) < 2 := by norm_num
  have h2 : 0 < mean [(1 : ℚ)] := by norm_num [mean]
  have h3 : 0 < mean [(3 : ℚ)] := by norm_num [mean]
  have h4 : mean [(1 : ℚ)] ≠ mean [(3 : ℚ)] := by norm_num [mean]
  have h5 : meanLib.diff_half_width (1/20) ([(1 : ℚ)].map (fun v => 2 * v))
      ([(3 : ℚ)].map (fun v => 2 * v))
      = 2 * meanLib.diff_half_width (1/20) [(1 : ℚ)] [(3 : ℚ)] := by
    norm_num [meanLib, mean]
  exact ⟨h1, h2, h3, h4, h5,
    c6_ratio_scale_invariant meanLib (1/20) 2 [1] [3] h1 h2 h3 h4 h5⟩
